import Mathlib

/-!
Verification development for the go-longpoll repository (package `longpoll`).
The Go source (manager.go, peer.go, utils.go) is shallowly embedded below:
Go maps become an inductive `GoMap` distinguishing the nil map (reads as
empty, writes fault) from a concrete association list; goroutine-visible
side effects (callback invocations, channel sends, HTTP POSTs, channel
closes, log lines) become an explicit `Event` list; network responses and
channel readiness are passed in as explicit parameters.
-/

namespace GoLongpoll

/-! ### Association-list primitives (the content of a non-nil Go map) -/

/-- First-match lookup in an association list, mirroring Go map indexing. -/
def aget {α : Type} : List (String × α) → String → Option α
  | [], _ => none
  | (a, b) :: rest, k => if a = k then some b else aget rest k

/-- Overwrite-or-append update, mirroring Go map assignment `m[k] = v`. -/
def aset {α : Type} : List (String × α) → String → α → List (String × α)
  | [], k, v => [(k, v)]
  | (a, b) :: rest, k, v =>
    if a = k then (a, v) :: rest else (a, b) :: aset rest k v

/-! ### Go maps with nil semantics -/

/-- A Go `map[string]string` value: either the nil map or a concrete table. -/
inductive GoMap where
  | nilMap : GoMap
  | mapOf (entries : List (String × String)) : GoMap
  deriving DecidableEq, Repr

/-- Reading `m[k]`: a nil map reads as empty. -/
def mapGet : GoMap → String → Option String
  | .nilMap, _ => none
  | .mapOf es, k => aget es k

/-- `for k, v := range m`: a nil map ranges over nothing. -/
def mapRange : GoMap → List (String × String)
  | .nilMap => []
  | .mapOf es => es

/-- Writing `m[k] = v`: assignment to a nil map faults (returns `none`). -/
def mapAssign : GoMap → String → String → Option GoMap
  | .nilMap, _, _ => none
  | .mapOf es, k, v => some (.mapOf (aset es k v))

/-- Well-formedness of a Go map value: the keys of the table are distinct
(guaranteed by Go map semantics). -/
def GoMap.WF : GoMap → Prop
  | .nilMap => True
  | .mapOf es => (es.map Prod.fst).Nodup

instance : (g : GoMap) → Decidable (GoMap.WF g)
  | .nilMap => .isTrue trivial
  | .mapOf es => inferInstanceAs (Decidable (es.map Prod.fst).Nodup)

/-- The sticky-attribute merge loop
`for k, v := range sticky { attrs[k] = v }` (manager.go); faults iff the
sticky map has at least one entry and `attrs` is the nil map. -/
def applyStickyList : List (String × String) → GoMap → Option GoMap
  | [], attrs => some attrs
  | (k, v) :: rest, attrs =>
    match mapAssign attrs k v with
    | none => none
    | some attrs1 => applyStickyList rest attrs1

def applySticky (sticky attrs : GoMap) : Option GoMap :=
  applyStickyList (mapRange sticky) attrs

/-- Pure description of the merge on non-nil tables. -/
def mergeEntries : List (String × String) → List (String × String) →
    List (String × String)
  | [], es => es
  | (k, v) :: rest, es => mergeEntries rest (aset es k v)

/-! ### Data model (peer.go revision defining `Manager`, `Message`, `Peer`) -/

/-- The wire envelope (`Message` in peer.go).  Payload bytes are numbers,
the publish timestamp is an abstract instant. -/
structure Message where
  Data : List Nat
  Attributes : GoMap
  MessageID : String
  PublishTime : Nat
  deriving DecidableEq, Repr

/-- A peer (`Peer` in peer.go).  The function-pointer callback fields are
represented by presence flags; their invocations are recorded as events.
The buffered channel `Ch` is represented by its queue contents and
capacity. -/
structure Peer where
  UUID : String
  ipAddr : String
  ChBuf : List Message
  ChCap : Nat
  LastConsumed : Nat
  hasUpCallback : Bool
  hasDownCallback : Bool
  hasReceiveCallback : Bool
  Topics : List String
  StickyAttrbitues : GoMap
  IsServer : Bool
  ServerURL : String
  Headers : GoMap
  Online : Bool
  deriving DecidableEq, Repr

/-- The manager (`Manager` in peer.go).  The concurrent peer registry is an
association list keyed by peer UUID; durations are in nanoseconds as in
Go's `time.Duration`. -/
structure Manager where
  UUID : String
  peers : List (String × Peer)
  API_Port : Int
  API_Path : String
  PollLength : Int
  PeerExpiry : Int
  Deadline : Int
  OutboundBufferSize : Nat
  hasUpCallback : Bool
  hasDownCallback : Bool
  hasReceiveCallback : Bool
  deriving DecidableEq, Repr

/-- One nanosecond times 10^9: Go's `time.Second`. -/
def second : Int := 1000000000

/-- Observable side effects of the embedded operations: asynchronous
callback invocations (`go cb(...)`), channel sends, HTTP POST dispatches,
channel closes and log lines. -/
inductive Event where
  | upCall (peerUUID : String)
  | downCall (peerUUID : String)
  | receiveCall (peerUUID : String) (msg : Message)
  | httpPOST (url : String) (msg : Message)
  | chanSend (peerUUID : String) (msg : Message)
  | chanClose (peerUUID : String)
  | logLine (line : String)
  deriving DecidableEq, Repr

/-- The message carried by a dispatch event, if any. -/
def eventMessage : Event → Option Message
  | .httpPOST _ msg => some msg
  | .chanSend _ msg => some msg
  | _ => none

/-- A payload handed to `json.Marshal` (the `data interface{}` argument of
`Send`/`FanOut`): either a value that marshals to some bytes, or a value
the encoder rejects (such as a channel or function). -/
inductive GoValue where
  | str (s : String)
  | unmarshalable
  deriving DecidableEq, Repr

def jsonMarshal : GoValue → Except String (List Nat)
  | .str s => .ok (s.toList.map Char.toNat)
  | .unmarshalable => .error "json: unsupported type"

/-- The marshalling prologue shared by `Send`/`FanOut`: a nil payload
becomes the empty byte slice, otherwise `json.Marshal` runs. -/
def dataMarshal : Option GoValue → Except String (List Nat)
  | some v => jsonMarshal v
  | none => .ok []

/-! ### Peer state machine (peer.go) -/

/-- `markOnline` (peer.go lines 77-85). -/
def Peer.markOnline (p : Peer) : Peer × List Event :=
  if !p.Online then
    ({ p with Online := true },
     if p.hasUpCallback then [Event.upCall p.UUID] else [])
  else (p, [])

/-- `markOffline` (peer.go lines 87-95). -/
def Peer.markOffline (p : Peer) : Peer × List Event :=
  if p.Online then
    ({ p with Online := false },
     if p.hasDownCallback then [Event.downCall p.UUID] else [])
  else (p, [])

/-- One call in a sequence of liveness transitions: `true` requests
`markOnline`, `false` requests `markOffline`. -/
def applyMark (p : Peer) (req : Bool) : Peer × List Event :=
  if req then p.markOnline else p.markOffline

/-- A whole sequence of `markOnline`/`markOffline` calls against one peer:
the final peer state and all emitted callback events, in order. -/
def runMarks (p : Peer) : List Bool → Peer × List Event
  | [] => (p, [])
  | r :: rs =>
    ((runMarks (applyMark p r).1 rs).1,
     (applyMark p r).2 ++ (runMarks (applyMark p r).1 rs).2)

/-- The number of actual state transitions a request sequence causes,
starting from online flag `b`. -/
def countTransitions (b : Bool) : List Bool → Nat
  | [] => 0
  | r :: rs => (if r = b then 0 else 1) + countTransitions r rs

/-- The callback events a request sequence must produce for the peer named
`u`, starting from online flag `b`: nothing for a request matching the
current flag, and exactly the corresponding callback — up on an
offline-to-online flip, down on an online-to-offline flip — for each
request that changes it. -/
def expectedMarkEvents (u : String) (b : Bool) : List Bool → List Event
  | [] => []
  | r :: rs =>
    (if r = b then []
     else [if r then Event.upCall u else Event.downCall u]) ++
      expectedMarkEvents u r rs

/-- The body read of a 200 response: `io.ReadAll` may fail, then
`json.Unmarshal` may fail, otherwise a `Message` is parsed. -/
inductive BodyRead where
  | readErr (e : String)
  | parseErr (e : String)
  | parsed (msg : Message)
  deriving DecidableEq, Repr

/-- Outcome of the HTTP exchange of one poll cycle: the request could not
be built or the transport failed, or a status code with a body arrived. -/
inductive PollResponse where
  | transportErr (e : String)
  | status (code : Nat) (body : BodyRead)
  deriving DecidableEq, Repr

/-- One poll cycle (`poll` in peer.go lines 11-75), as a function of the
response the network produced: the updated peer, the events emitted and
the returned error, if any. -/
def Peer.poll (p : Peer) (resp : PollResponse) : Peer × List Event × Option String :=
  match resp with
  | .transportErr e =>
    (p.markOffline.1, p.markOffline.2, some e)
  | .status code body =>
    if code = 200 then
      match body with
      | .readErr e => (p, [], some e)
      | .parseErr e => (p, [], some e)
      | .parsed msg =>
        let recvEvs := if p.hasReceiveCallback then [Event.receiveCall p.UUID msg] else []
        (p.markOnline.1, recvEvs ++ p.markOnline.2, none)
    else if code = 201 then
      (p.markOnline.1, p.markOnline.2, none)
    else if code = 204 then
      (p.markOnline.1, p.markOnline.2, none)
    else
      (p.markOffline.1, p.markOffline.2, some ("poll failed: " ++ toString code))

/-- One iteration of the poll goroutine launched by `AddServerPeer`
(manager.go lines 120-137): `none` when the peer was deleted and the
goroutine exits; otherwise the updated manager, the emitted events, and
the duration slept before the next poll (`PollLength` after a failed
poll, `0` after a successful one). -/
def Manager.serverPollIteration (m : Manager) (uuid : String)
    (resp : PollResponse) : Option (Manager × List Event × Int) :=
  match aget m.peers uuid with
  | none => none
  | some peer =>
    some ({ m with peers := aset m.peers uuid (peer.poll resp).1 },
          (peer.poll resp).2.1,
          match (peer.poll resp).2.2 with
          | some _ => m.PollLength
          | none => 0)

/-! ### Manager operations (manager.go) -/

/-- `Start` (manager.go lines 36-83): the validation prologue, and whether
the garbage-collection goroutine and the API listener goroutine were
launched.  Result: (returned error, GC started, listener started). -/
def Manager.Start (m : Manager) : Option String × Bool × Bool :=
  if m.API_Path = "" then (some "API_Path is required", false, false)
  else if m.PollLength < 1 * second then
    (some "PollLength must be at least 1 second", false, false)
  else if m.PeerExpiry < 1 * second then
    (some "PeerExpiry must be at least 1 second", false, false)
  else if m.Deadline < 1 * second then
    (some "deadline must be at least 1 second", false, false)
  else (none, true, true)

/-- `PeerExists` (manager.go). -/
def Manager.PeerExists (m : Manager) (uuid : String) : Bool :=
  (aget m.peers uuid).isSome

/-- `AddServerPeer` (manager.go lines 86-140): validation, duplicate
check, and registration of a new server peer (unset Go struct fields take
their zero values: empty address, nil channel, offline).  Result:
(returned error, manager state after the call). -/
def Manager.AddServerPeer (m : Manager) (uuid url : String)
    (headers stickyAttributes : GoMap) : Option String × Manager :=
  if uuid = "" then (some "uuid is required", m)
  else if url = "" then (some "server URL is required", m)
  else if m.PeerExists uuid then (some "peer already exists", m)
  else
    let lpp : Peer :=
      { UUID := uuid, ipAddr := "", ChBuf := [], ChCap := 0, LastConsumed := 0,
        hasUpCallback := m.hasUpCallback, hasDownCallback := m.hasDownCallback,
        hasReceiveCallback := m.hasReceiveCallback, Topics := [],
        StickyAttrbitues := stickyAttributes, IsServer := true,
        ServerURL := url, Headers := headers, Online := false }
    (none, { m with peers := aset m.peers uuid lpp })

/-- Result of a `Send`/`Forward` call: a normal return (`ok`/`error`), or a
runtime fault (assignment to a nil map inside the sticky merge). -/
inductive SendOutcome where
  | ok
  | error (msg : String)
  | panicked
  deriving DecidableEq, Repr

/-- `Send` (manager.go lines 253-306).  `msgId`/`now` stand for the fresh
`uuid.New()` and `time.Now()`; `postRes` is the outcome the network gives
the POST dispatch of a server peer; `chanAcc` tells whether the peer's
channel accepted the message before the deadline.  Result: (outcome,
manager state after the call, emitted events). -/
def Manager.Send (m : Manager) (peerUUID : String) (data : Option GoValue)
    (attributes : GoMap) (msgId : String) (now : Nat)
    (postRes : Except String Unit) (chanAcc : Bool) :
    SendOutcome × Manager × List Event :=
  match dataMarshal data with
  | .error _ =>
    (.error ("failed to send message to " ++ peerUUID ++ ": error marshalling data"), m, [])
  | .ok dataBytes =>
    let message : Message :=
      { Data := dataBytes, Attributes := attributes,
        MessageID := msgId, PublishTime := now }
    match aget m.peers peerUUID with
    | none =>
      (.error ("failed to send message to " ++ peerUUID ++ ": peer not found"), m, [])
    | some peer =>
      match applySticky peer.StickyAttrbitues message.Attributes with
      | none => (.panicked, m, [])
      | some merged =>
        let message := { message with Attributes := merged }
        if peer.IsServer then
          match postRes with
          | .ok _ => (.ok, m, [Event.httpPOST peer.ServerURL message])
          | .error e =>
            (.error ("failed to send message to " ++ peerUUID ++ ": " ++ e), m,
             [Event.httpPOST peer.ServerURL message])
        else
          if chanAcc then
            let peer1 := { peer with ChBuf := peer.ChBuf ++ [message] }
            (.ok, { m with peers := aset m.peers peerUUID peer1 },
             [Event.chanSend peerUUID message])
          else
            (.error ("failed to send message to peer: " ++ peerUUID ++ ": deadline exceeded"),
             m, [])

/-- Result of a `FanOut` call: the payload failed to marshal, the sticky
merge faulted on a nil attribute map, or the loop completed, yielding the
final contents of the caller-supplied attribute map (which the loop
mutates through aliasing) and the emitted events. -/
inductive FanOutRes where
  | marshalFail (e : String)
  | panicked (events : List Event)
  | completed (finalAttrs : GoMap) (events : List Event)
  deriving DecidableEq, Repr

/-- The peer loop of `FanOut` (manager.go lines 361-401).  Every created
`Message` stores the caller's attribute map itself (`Attributes:
attributes` aliases the Go map), so the sticky merge of each recipient
writes into the one shared map: the threaded `attrs` is that shared map
and each dispatched message snapshots it right after its own merge. -/
def fanOutLoop (dataBytes : List Nat) (now : Nat)
    (postRes : String → Except String Unit) (chanAcc : String → Bool) :
    List (String × Peer) → GoMap → List String → List Event → FanOutRes
  | [], attrs, _, evs => .completed attrs evs
  | (key, peer) :: rest, attrs, ids, evs =>
    if !peer.Online then
      fanOutLoop dataBytes now postRes chanAcc rest attrs ids evs
    else
      match applySticky peer.StickyAttrbitues attrs with
      | none => .panicked evs
      | some attrs1 =>
        let message : Message :=
          { Data := dataBytes, Attributes := attrs1,
            MessageID := ids.headD "", PublishTime := now }
        let newEvs :=
          if peer.IsServer then
            match postRes key with
            | .ok _ => [Event.httpPOST peer.ServerURL message]
            | .error e =>
              [Event.httpPOST peer.ServerURL message,
               Event.logLine ("failed to FanOut message to " ++ peer.UUID ++ ": " ++ e)]
          else
            if chanAcc key then [Event.chanSend key message]
            else [Event.logLine ("failed to FanOut message to peer: " ++ key)]
        fanOutLoop dataBytes now postRes chanAcc rest attrs1 ids.tail (evs ++ newEvs)

/-- `FanOut` (manager.go lines 344-404).  `ids` supplies the fresh
`uuid.New()` results consumed by the loop, one per online recipient. -/
def Manager.FanOut (m : Manager) (data : Option GoValue) (attributes : GoMap)
    (ids : List String) (now : Nat) (postRes : String → Except String Unit)
    (chanAcc : String → Bool) : FanOutRes :=
  match dataMarshal data with
  | .error e => .marshalFail e
  | .ok dataBytes => fanOutLoop dataBytes now postRes chanAcc m.peers attributes ids []

/-! ### Inbound handler and garbage collector (utils.go) -/

/-- Outcome of `handleGET`, as the wire status it produces. -/
inductive GetOutcome where
  | badRequest
  | created
  | delivered (msg : Message)
  | noMessage
  | aborted
  deriving DecidableEq, Repr

/-- How the three-way select of an in-flight poll resolved when the
delivery queue was empty: the poll-length timer fired, or the originating
request was cancelled. -/
inductive WaitOutcome where
  | timedOut
  | cancelled
  deriving DecidableEq, Repr

/-- The peer `handleGET`/`handlePOST` registers for an unseen identity
(utils.go lines 30-39): online, fresh empty buffered channel,
`LastConsumed = now`, callbacks taken from the manager. -/
def freshInboundPeer (m : Manager) (uuid : String) (now : Nat) : Peer :=
  { UUID := uuid, ipAddr := "", ChBuf := [], ChCap := m.OutboundBufferSize,
    LastConsumed := now, hasUpCallback := m.hasUpCallback,
    hasDownCallback := m.hasDownCallback,
    hasReceiveCallback := m.hasReceiveCallback, Topics := [],
    StickyAttrbitues := GoMap.nilMap, IsServer := false, ServerURL := "",
    Headers := GoMap.nilMap, Online := true }

/-- `handleGET` (utils.go lines 11-72): the inbound poll operation.
`wait` resolves the select race when the queue is empty.  Result:
(outcome, manager state after the call, emitted events). -/
def Manager.handleGET (m : Manager) (uuid clientIP : String) (now : Nat)
    (wait : WaitOutcome) : GetOutcome × Manager × List Event :=
  if uuid = "" then (.badRequest, m, [])
  else
    match aget m.peers uuid with
    | none =>
      (.created, { m with peers := aset m.peers uuid (freshInboundPeer m uuid now) },
       if m.hasUpCallback then [Event.upCall uuid] else [])
    | some peer =>
      let peer1 := { peer with ipAddr := clientIP }
      match peer1.ChBuf with
      | msg :: rest =>
        let peer2 := { peer1 with ChBuf := rest, LastConsumed := now }
        (.delivered msg, { m with peers := aset m.peers uuid peer2 }, [])
      | [] =>
        match wait with
        | .timedOut =>
          let peer2 := { peer1 with LastConsumed := now }
          (.noMessage, { m with peers := aset m.peers uuid peer2 }, [])
        | .cancelled =>
          (.aborted, { m with peers := aset m.peers uuid peer1 }, [])

/-- Whether `time.Since(peer.LastConsumed) > m.PeerExpiry` holds at
instant `now` (utils.go line 154). -/
def peerExpired (expiry : Int) (now : Nat) (p : Peer) : Bool :=
  decide ((now : Int) - (p.LastConsumed : Int) > expiry)

/-- The sweep loop of `garbageCollectPeers` (utils.go lines 144-163):
the surviving registry entries and the emitted events. -/
def gcSweep (expiry : Int) (hasDown : Bool) (now : Nat) :
    List (String × Peer) → List (String × Peer) × List Event
  | [] => ([], [])
  | (key, p) :: rest =>
    if p.IsServer then
      ((key, p) :: (gcSweep expiry hasDown now rest).1,
       (gcSweep expiry hasDown now rest).2)
    else if peerExpired expiry now p then
      ((gcSweep expiry hasDown now rest).1,
       (if hasDown then [Event.downCall p.UUID] else []) ++
         Event.chanClose key :: (gcSweep expiry hasDown now rest).2)
    else
      ((key, p) :: (gcSweep expiry hasDown now rest).1,
       (gcSweep expiry hasDown now rest).2)

/-- `garbageCollectPeers` (utils.go lines 144-163). -/
def Manager.garbageCollectPeers (m : Manager) (now : Nat) : Manager × List Event :=
  ({ m with peers := (gcSweep m.PeerExpiry m.hasDownCallback now m.peers).1 },
   (gcSweep m.PeerExpiry m.hasDownCallback now m.peers).2)

/-! ### Concrete fixtures used by witnesses and counterexamples -/

/-- A registered inbound (client) peer with the given sticky attributes. -/
def inboundPeerEx (uuid : String) (sticky : GoMap) : Peer :=
  { UUID := uuid, ipAddr := "", ChBuf := [], ChCap := 50, LastConsumed := 0,
    hasUpCallback := true, hasDownCallback := true, hasReceiveCallback := true,
    Topics := [], StickyAttrbitues := sticky, IsServer := false,
    ServerURL := "", Headers := GoMap.nilMap, Online := true }

/-- A registered outbound (server) peer. -/
def serverPeerEx : Peer :=
  { UUID := "srv", ipAddr := "", ChBuf := [], ChCap := 0, LastConsumed := 0,
    hasUpCallback := true, hasDownCallback := true, hasReceiveCallback := true,
    Topics := [], StickyAttrbitues := GoMap.nilMap, IsServer := true,
    ServerURL := "http://localhost:8080/poll", Headers := GoMap.nilMap,
    Online := true }

/-- A manager with the default configuration and the given registry. -/
def managerEx (ps : List (String × Peer)) : Manager :=
  { UUID := "mgr", peers := ps, API_Port := 8080, API_Path := "/poll",
    PollLength := 10 * second, PeerExpiry := 30 * second,
    Deadline := 20 * second, OutboundBufferSize := 50,
    hasUpCallback := true, hasDownCallback := true, hasReceiveCallback := true }

/-! ### Lemmas about the map primitives and the sticky merge -/

theorem aget_aset_self {α : Type} (l : List (String × α)) (k : String) (v : α) :
    aget (aset l k v) k = some v := by
  induction l with
  | nil => simp [aget, aset]
  | cons hd tl ih =>
    obtain ⟨a, b⟩ := hd
    by_cases h : a = k
    · simp [aget, aset, h]
    · simp [aget, aset, h, ih]

theorem aget_aset_ne {α : Type} (l : List (String × α)) (k k' : String) (v : α)
    (h : k ≠ k') : aget (aset l k v) k' = aget l k' := by
  induction l with
  | nil => simp [aget, aset, fun hh => h hh]
  | cons hd tl ih =>
    obtain ⟨a, b⟩ := hd
    by_cases ha : a = k
    · subst ha
      simp [aget, aset, h]
    · by_cases ha' : a = k'
      · subst ha'
        simp [aget, aset, ha]
      · simp [aget, aset, ha, ha', ih]

theorem aget_eq_none_of_not_mem {α : Type} (l : List (String × α)) (k : String)
    (h : k ∉ l.map Prod.fst) : aget l k = none := by
  induction l with
  | nil => rfl
  | cons hd tl ih =>
    obtain ⟨a, b⟩ := hd
    simp only [List.map_cons, List.mem_cons] at h
    push_neg at h
    have ha : a ≠ k := fun hh => h.1 hh.symm
    simp [aget, ha, ih h.2]

theorem applyStickyList_mapOf (ss es : List (String × String)) :
    applyStickyList ss (GoMap.mapOf es) = some (GoMap.mapOf (mergeEntries ss es)) := by
  induction ss generalizing es with
  | nil => rfl
  | cons hd tl ih =>
    obtain ⟨k, v⟩ := hd
    simp [applyStickyList, mapAssign, mergeEntries, ih]

theorem aget_mergeEntries (ss es : List (String × String)) (k : String)
    (hnd : (ss.map Prod.fst).Nodup) :
    aget (mergeEntries ss es) k =
      match aget ss k with
      | some v => some v
      | none => aget es k := by
  induction ss generalizing es with
  | nil => rfl
  | cons hd tl ih =>
    obtain ⟨a, b⟩ := hd
    simp only [List.map_cons, List.nodup_cons] at hnd
    obtain ⟨hna, hnd'⟩ := hnd
    by_cases hak : a = k
    · subst hak
      have htl : aget tl a = none :=
        aget_eq_none_of_not_mem tl a hna
      simp [mergeEntries, ih _ hnd', htl, aget, aget_aset_self]
    · simp [mergeEntries, ih _ hnd', aget, hak, aget_aset_ne es a k b hak]

/-- The dispatched attribute table after a successful sticky merge is the
caller table overridden by the sticky table: sticky values win on a key
collision, and a key present in only one table keeps its value. -/
theorem applySticky_get (sticky attrs merged : GoMap) (k : String)
    (hwf : GoMap.WF sticky) (h : applySticky sticky attrs = some merged) :
    mapGet merged k =
      match mapGet sticky k with
      | some v => some v
      | none => mapGet attrs k := by
  cases sticky with
  | nilMap =>
    simp only [applySticky, mapRange, applyStickyList] at h
    cases h
    rfl
  | mapOf ss =>
    cases attrs with
    | nilMap =>
      cases ss with
      | nil =>
        simp only [applySticky, mapRange, applyStickyList] at h
        cases h
        rfl
      | cons hd tl =>
        obtain ⟨a, b⟩ := hd
        simp [applySticky, mapRange, applyStickyList, mapAssign] at h
    | mapOf es =>
      simp only [applySticky, mapRange, applyStickyList_mapOf] at h
      cases h
      simpa [mapGet] using aget_mergeEntries ss es k hwf

/-- If the sticky map has at least one entry, merging into the nil
attribute map faults (Go assignment to a nil map). -/
theorem applySticky_nilMap_faults (sticky : GoMap)
    (h : mapRange sticky ≠ []) : applySticky sticky GoMap.nilMap = none := by
  unfold applySticky
  cases hr : mapRange sticky with
  | nil => exact absurd hr h
  | cons hd tl =>
    obtain ⟨a, b⟩ := hd
    rfl

/-- If the sticky map has no entries, the merge returns the attribute map
unchanged. -/
theorem applySticky_empty (sticky attrs : GoMap)
    (h : mapRange sticky = []) : applySticky sticky attrs = some attrs := by
  unfold applySticky
  rw [h]
  rfl

/-! ### Claim theorems -/

/-- Claim C1 (code bug).  The claim states that the sticky-attribute merge
of a fan-out never mutates the caller-supplied attributes mapping and that
each recipient's message carries its own independent copy.  The code
stores the caller's map itself in every recipient's `Message`
(`Attributes: attributes` aliases the Go map) and merges sticky attributes
into that shared map, so on the concrete input below — attributes
`{a: 1}`, online inbound peers `p1` (sticky `{s: x}`) then `p2` (no sticky
attributes) — the caller's map ends up containing `s = x` (it had no key
`s` before the call) and `p2`'s dispatched message carries `p1`'s sticky
attribute `s = x`. -/
theorem fanOut_mutates_caller_attributes :
    Manager.FanOut
        (managerEx [("p1", inboundPeerEx "p1" (GoMap.mapOf [("s", "x")])),
                    ("p2", inboundPeerEx "p2" (GoMap.mapOf []))])
        none (GoMap.mapOf [("a", "1")]) ["i1", "i2"] 0
        (fun _ => Except.ok ()) (fun _ => true)
      = FanOutRes.completed (GoMap.mapOf [("a", "1"), ("s", "x")])
          [Event.chanSend "p1"
             { Data := [], Attributes := GoMap.mapOf [("a", "1"), ("s", "x")],
               MessageID := "i1", PublishTime := 0 },
           Event.chanSend "p2"
             { Data := [], Attributes := GoMap.mapOf [("a", "1"), ("s", "x")],
               MessageID := "i2", PublishTime := 0 }]
    ∧ mapGet (GoMap.mapOf [("a", "1")]) "s" = none
    ∧ mapGet (GoMap.mapOf [("a", "1"), ("s", "x")]) "s" = some "x" := by
  exact ⟨rfl, rfl, rfl⟩

/-- Claim C7.  `AddServerPeer` rejects an empty identity or an empty
target URL with a validation error, and a duplicate identity with an
already-exists error; in every failing case the manager — its registry and
every registered peer's state included — is returned unchanged. -/
theorem addServerPeer_rejects (m : Manager) (uuid url : String)
    (headers sticky : GoMap) :
    (uuid = "" →
      Manager.AddServerPeer m uuid url headers sticky = (some "uuid is required", m)) ∧
    (uuid ≠ "" → url = "" →
      Manager.AddServerPeer m uuid url headers sticky = (some "server URL is required", m)) ∧
    (uuid ≠ "" → url ≠ "" → m.PeerExists uuid = true →
      Manager.AddServerPeer m uuid url headers sticky = (some "peer already exists", m)) := by
  refine ⟨fun h1 => ?_, fun h1 h2 => ?_, fun h1 h2 h3 => ?_⟩
  · simp [Manager.AddServerPeer, h1]
  · simp [Manager.AddServerPeer, h1, h2]
  · simp [Manager.AddServerPeer, h1, h2, h3]

theorem addServerPeer_rejects_witness :
    Manager.AddServerPeer
        (managerEx [("p1", inboundPeerEx "p1" GoMap.nilMap)]) "p1" "http://x"
        GoMap.nilMap GoMap.nilMap
      = (some "peer already exists",
         managerEx [("p1", inboundPeerEx "p1" GoMap.nilMap)]) := by
  exact (addServerPeer_rejects (managerEx [("p1", inboundPeerEx "p1" GoMap.nilMap)])
    "p1" "http://x" GoMap.nilMap GoMap.nilMap).2.2
    (by decide) (by decide) (by decide)

/-- Claim C9.  `Start` validates the listen path, the poll length, the
peer expiry and the deadline in the order the code checks them, returns an
error naming the first invalid field without launching the
garbage-collection loop or the listener, and returns no error on a valid
configuration (all durations at least one second, non-empty path). -/
theorem start_validates_config (m : Manager) :
    (m.API_Path = "" → m.Start = (some "API_Path is required", false, false)) ∧
    (m.API_Path ≠ "" → m.PollLength < 1 * second →
      m.Start = (some "PollLength must be at least 1 second", false, false)) ∧
    (m.API_Path ≠ "" → ¬ m.PollLength < 1 * second → m.PeerExpiry < 1 * second →
      m.Start = (some "PeerExpiry must be at least 1 second", false, false)) ∧
    (m.API_Path ≠ "" → ¬ m.PollLength < 1 * second → ¬ m.PeerExpiry < 1 * second →
      m.Deadline < 1 * second →
      m.Start = (some "deadline must be at least 1 second", false, false)) ∧
    (m.API_Path ≠ "" → ¬ m.PollLength < 1 * second → ¬ m.PeerExpiry < 1 * second →
      ¬ m.Deadline < 1 * second → m.Start = (none, true, true)) := by
  rw [one_mul]
  refine ⟨fun h1 => ?_, fun h1 h2 => ?_, fun h1 h2 h3 => ?_,
          fun h1 h2 h3 h4 => ?_, fun h1 h2 h3 h4 => ?_⟩
  · simp [Manager.Start, h1]
  · simp [Manager.Start, h1, h2]
  · simp [Manager.Start, h1, h2, h3]
  · simp [Manager.Start, h1, h2, h3, h4]
  · simp [Manager.Start, h1, h2, h3, h4]

theorem start_validates_config_witness :
    (managerEx []).Start = (none, true, true) := by
  exact (start_validates_config (managerEx [])).2.2.2.2
    (by decide) (by decide) (by decide) (by decide)

/-- Claim C10.  When `Send` reaches the sticky-attribute merge with a nil
caller attributes mapping and the target peer has at least one sticky
attribute, the merge assigns into the nil map stored in the built
`Message` (which aliases the caller's argument), so the call faults with a
runtime panic instead of returning an error result. -/
theorem send_nil_attributes_panics (m : Manager) (peerUUID : String)
    (data : Option GoValue) (msgId : String) (now : Nat)
    (postRes : Except String Unit) (chanAcc : Bool) (peer : Peer) (bs : List Nat)
    (hok : dataMarshal data = .ok bs)
    (hp : aget m.peers peerUUID = some peer)
    (hs : mapRange peer.StickyAttrbitues ≠ []) :
    (Manager.Send m peerUUID data GoMap.nilMap msgId now postRes chanAcc).1
      = SendOutcome.panicked := by
  simp [Manager.Send, hok, hp, applySticky_nilMap_faults _ hs]

theorem send_nil_attributes_panics_witness :
    (Manager.Send (managerEx [("p1", inboundPeerEx "p1" (GoMap.mapOf [("s", "x")]))])
        "p1" (some (GoValue.str "hello")) GoMap.nilMap "id" 0 (Except.ok ()) true).1
      = SendOutcome.panicked := by
  exact send_nil_attributes_panics _ "p1" (some (GoValue.str "hello")) "id" 0
    (Except.ok ()) true (inboundPeerEx "p1" (GoMap.mapOf [("s", "x")]))
    ((String.toList "hello").map Char.toNat) rfl rfl (by decide)

/-- Claim C8, counterexample to the claim as stated.  `Send` marshals the
payload before looking the peer up, so a call naming the unregistered
identity `ghost` with a payload `json.Marshal` rejects returns the
marshalling error, not the not-found error the claim requires for every
such call. -/
theorem send_ghost_counterexample :
    (Manager.Send (managerEx []) "ghost" (some GoValue.unmarshalable)
        GoMap.nilMap "id" 0 (Except.ok ()) true).1
      = SendOutcome.error "failed to send message to ghost: error marshalling data"
    ∧ SendOutcome.error "failed to send message to ghost: error marshalling data"
      ≠ SendOutcome.error "failed to send message to ghost: peer not found" := by
  exact ⟨rfl, by decide⟩

/-- Claim C8, amended.  A `Send` naming an unregistered identity returns
the not-found error when the payload marshals (and the marshalling error
when it does not, reported before the registry is consulted); in both
cases there are no side effects: the manager state — registry included —
is returned unchanged and no event (no channel send, no network request)
is emitted. -/
theorem send_unregistered_no_side_effects (m : Manager) (peerUUID : String)
    (data : Option GoValue) (attributes : GoMap) (msgId : String) (now : Nat)
    (postRes : Except String Unit) (chanAcc : Bool)
    (hnone : aget m.peers peerUUID = none) :
    (∀ bs, dataMarshal data = .ok bs →
      Manager.Send m peerUUID data attributes msgId now postRes chanAcc
        = (.error ("failed to send message to " ++ peerUUID ++ ": peer not found"), m, [])) ∧
    (∀ e, dataMarshal data = .error e →
      Manager.Send m peerUUID data attributes msgId now postRes chanAcc
        = (.error ("failed to send message to " ++ peerUUID ++ ": error marshalling data"),
           m, [])) := by
  constructor
  · intro bs hok
    simp [Manager.Send, hok, hnone]
  · intro e herr
    simp [Manager.Send, herr]

theorem send_unregistered_no_side_effects_witness :
    Manager.Send (managerEx []) "ghost" (some (GoValue.str "x")) GoMap.nilMap
        "id" 0 (Except.ok ()) true
      = (.error "failed to send message to ghost: peer not found", managerEx [], []) := by
  exact (send_unregistered_no_side_effects (managerEx []) "ghost"
    (some (GoValue.str "x")) GoMap.nilMap "id" 0 (Except.ok ()) true rfl).1
    ((String.toList "x").map Char.toNat) rfl

/-- Claim C2.  For a `Send` to a registered peer, every dispatched message
(whether pushed over HTTP or enqueued on the peer's channel) carries the
caller-supplied attributes overridden by the peer's sticky attributes: on
a key collision the sticky (peer) value wins, and a key present in only
one of the two mappings keeps its value. -/
theorem send_merges_sticky_over_caller (m : Manager) (peerUUID : String)
    (data : Option GoValue) (attributes : GoMap) (msgId : String) (now : Nat)
    (postRes : Except String Unit) (chanAcc : Bool) (peer : Peer)
    (hp : aget m.peers peerUUID = some peer)
    (hwf : GoMap.WF peer.StickyAttrbitues) :
    ∀ ev ∈ (Manager.Send m peerUUID data attributes msgId now postRes chanAcc).2.2,
      ∀ msg, eventMessage ev = some msg →
        ∀ k, mapGet msg.Attributes k =
          match mapGet peer.StickyAttrbitues k with
          | some v => some v
          | none => mapGet attributes k := by
  intro ev hev msg hmsg k
  cases hdm : dataMarshal data with
  | error e =>
    simp [Manager.Send, hdm] at hev
  | ok dataBytes =>
    cases has : applySticky peer.StickyAttrbitues attributes with
    | none =>
      simp [Manager.Send, hdm, hp, has] at hev
    | some merged =>
      have hmerged := applySticky_get peer.StickyAttrbitues attributes merged k hwf has
      by_cases hsrv : peer.IsServer
      · cases hpr : postRes with
        | ok u =>
          simp [Manager.Send, hdm, hp, has, hsrv, hpr] at hev
          subst hev
          simp [eventMessage] at hmsg
          subst hmsg
          exact hmerged
        | error e =>
          simp [Manager.Send, hdm, hp, has, hsrv, hpr] at hev
          subst hev
          simp [eventMessage] at hmsg
          subst hmsg
          exact hmerged
      · cases hca : chanAcc with
        | true =>
          simp [Manager.Send, hdm, hp, has, hsrv, hca] at hev
          subst hev
          simp [eventMessage] at hmsg
          subst hmsg
          exact hmerged
        | false =>
          simp [Manager.Send, hdm, hp, has, hsrv, hca] at hev

theorem send_merges_sticky_over_caller_witness :
    mapGet (GoMap.mapOf [("s", "x"), ("a", "1"), ("t", "y")]) "s" =
      match mapGet (GoMap.mapOf [("s", "x"), ("t", "y")]) "s" with
      | some v => some v
      | none => mapGet (GoMap.mapOf [("s", "c"), ("a", "1")]) "s" := by
  exact send_merges_sticky_over_caller
    (managerEx [("p1", inboundPeerEx "p1" (GoMap.mapOf [("s", "x"), ("t", "y")]))])
    "p1" none (GoMap.mapOf [("s", "c"), ("a", "1")]) "id" 0 (Except.ok ()) true
    (inboundPeerEx "p1" (GoMap.mapOf [("s", "x"), ("t", "y")])) rfl (by decide)
    (Event.chanSend "p1"
      { Data := [], Attributes := GoMap.mapOf [("s", "x"), ("a", "1"), ("t", "y")],
        MessageID := "id", PublishTime := 0 })
    (by decide)
    { Data := [], Attributes := GoMap.mapOf [("s", "x"), ("a", "1"), ("t", "y")],
      MessageID := "id", PublishTime := 0 }
    rfl "s"

theorem markOnline_fst_online (p : Peer) : p.markOnline.1.Online = true := by
  unfold Peer.markOnline
  by_cases h : p.Online <;> simp [h]

theorem markOffline_fst_online (p : Peer) : p.markOffline.1.Online = false := by
  unfold Peer.markOffline
  by_cases h : p.Online <;> simp [h]

theorem receiveCall_not_mem_markOnline (p : Peer) (pu : String) (mg : Message) :
    Event.receiveCall pu mg ∉ p.markOnline.2 := by
  unfold Peer.markOnline
  by_cases h : p.Online <;> by_cases hu : p.hasUpCallback <;> simp [h, hu]

/-- Claim C3.  One poll cycle of an outbound peer's poller interprets the
exchange as follows: a 200 with a parseable `Message` body invokes the
receive callback and marks the peer online with no error; a 201 or a 204
marks it online with no callback; a transport failure or any other status
marks it offline and returns an error, and in exactly those error cases
the poll goroutine sleeps for the configured `PollLength` before the next
attempt instead of retrying immediately. -/
theorem poll_cycle_interpretation (m : Manager) (uuid : String) (peer : Peer)
    (resp : PollResponse)
    (hp : aget m.peers uuid = some peer)
    (hrc : peer.hasReceiveCallback = true) :
    (∀ msg, resp = PollResponse.status 200 (BodyRead.parsed msg) →
      (peer.poll resp).1.Online = true ∧
      Event.receiveCall peer.UUID msg ∈ (peer.poll resp).2.1 ∧
      (peer.poll resp).2.2 = none) ∧
    (∀ code body, resp = PollResponse.status code body → (code = 201 ∨ code = 204) →
      (peer.poll resp).1.Online = true ∧
      (∀ pu mg, Event.receiveCall pu mg ∉ (peer.poll resp).2.1) ∧
      (peer.poll resp).2.2 = none) ∧
    (∀ e, resp = PollResponse.transportErr e →
      (peer.poll resp).1.Online = false ∧
      (peer.poll resp).2.2 = some e ∧
      m.serverPollIteration uuid resp =
        some ({ m with peers := aset m.peers uuid (peer.poll resp).1 },
              (peer.poll resp).2.1, m.PollLength)) ∧
    (∀ code body, resp = PollResponse.status code body →
      code ≠ 200 → code ≠ 201 → code ≠ 204 →
      (peer.poll resp).1.Online = false ∧
      (peer.poll resp).2.2 = some ("poll failed: " ++ toString code) ∧
      m.serverPollIteration uuid resp =
        some ({ m with peers := aset m.peers uuid (peer.poll resp).1 },
              (peer.poll resp).2.1, m.PollLength)) := by
  refine ⟨?_, ?_, ?_, ?_⟩
  · rintro msg rfl
    simp [Peer.poll, hrc, markOnline_fst_online]
  · rintro code body rfl hcode
    rcases hcode with rfl | rfl <;>
      simp [Peer.poll, markOnline_fst_online, receiveCall_not_mem_markOnline]
  · rintro e rfl
    simp [Peer.poll, Manager.serverPollIteration, hp, markOffline_fst_online]
  · rintro code body rfl h200 h201 h204
    simp [Peer.poll, Manager.serverPollIteration, hp, h200, h201, h204,
          markOffline_fst_online]

theorem poll_cycle_interpretation_witness :
    (serverPeerEx.poll (PollResponse.transportErr "connection refused")).1.Online = false ∧
    (serverPeerEx.poll (PollResponse.transportErr "connection refused")).2.2
      = some "connection refused" := by
  have h := poll_cycle_interpretation (managerEx [("srv", serverPeerEx)]) "srv"
    serverPeerEx (PollResponse.transportErr "connection refused") rfl rfl
  exact ⟨(h.2.2.1 "connection refused" rfl).1, (h.2.2.1 "connection refused" rfl).2.1⟩

theorem applyMark_online (p : Peer) (r : Bool) : (applyMark p r).1.Online = r := by
  cases r
  · exact markOffline_fst_online p
  · exact markOnline_fst_online p

theorem applyMark_hasUp (p : Peer) (r : Bool) :
    (applyMark p r).1.hasUpCallback = p.hasUpCallback := by
  cases r <;> unfold applyMark Peer.markOnline Peer.markOffline <;>
    by_cases h : p.Online <;> simp [h]

theorem applyMark_hasDown (p : Peer) (r : Bool) :
    (applyMark p r).1.hasDownCallback = p.hasDownCallback := by
  cases r <;> unfold applyMark Peer.markOnline Peer.markOffline <;>
    by_cases h : p.Online <;> simp [h]

theorem applyMark_UUID (p : Peer) (r : Bool) : (applyMark p r).1.UUID = p.UUID := by
  cases r <;> unfold applyMark Peer.markOnline Peer.markOffline <;>
    by_cases h : p.Online <;> simp [h]

theorem applyMark_noop (p : Peer) (r : Bool) (h : r = p.Online) :
    applyMark p r = (p, []) := by
  subst h
  cases hpo : p.Online <;> simp [applyMark, Peer.markOnline, Peer.markOffline, hpo]

theorem applyMark_events (p : Peer) (r : Bool)
    (hu : p.hasUpCallback = true) (hd : p.hasDownCallback = true)
    (h : r ≠ p.Online) :
    (applyMark p r).2
      = [if r then Event.upCall p.UUID else Event.downCall p.UUID] := by
  cases r <;> cases hpo : p.Online <;>
    simp_all [applyMark, Peer.markOnline, Peer.markOffline]

theorem runMarks_eventList (p : Peer) (reqs : List Bool)
    (hu : p.hasUpCallback = true) (hd : p.hasDownCallback = true) :
    (runMarks p reqs).2 = expectedMarkEvents p.UUID p.Online reqs := by
  induction reqs generalizing p with
  | nil => rfl
  | cons r rs ih =>
    by_cases hr : r = p.Online
    · subst hr
      have hnoop := applyMark_noop p p.Online rfl
      simp [runMarks, expectedMarkEvents, hnoop, ih p hu hd]
    · have hu1 : (applyMark p r).1.hasUpCallback = true := by
        rw [applyMark_hasUp]; exact hu
      have hd1 : (applyMark p r).1.hasDownCallback = true := by
        rw [applyMark_hasDown]; exact hd
      have hrest := ih (applyMark p r).1 hu1 hd1
      rw [applyMark_online, applyMark_UUID] at hrest
      simp [runMarks, expectedMarkEvents, applyMark_events p r hu hd hr, hr, hrest]

theorem applyMark_len (p : Peer) (r : Bool)
    (hu : p.hasUpCallback = true) (hd : p.hasDownCallback = true) :
    (applyMark p r).2.length = if r = p.Online then 0 else 1 := by
  cases r <;> cases hpo : p.Online <;>
    simp [applyMark, Peer.markOnline, Peer.markOffline, hpo, hu, hd]

/-- Claim C4.  A `markOnline`/`markOffline` call whose requested state
equals the peer's current online flag is a no-op that changes nothing and
emits no callback; a call that changes the flag flips exactly the flag and
emits exactly the corresponding callback — the up callback on an
offline-to-online flip, the down callback on an online-to-offline flip —
once; consequently, over any sequence of such calls the emitted events are
precisely the corresponding callbacks of the actual state transitions, in
order, and their number equals the number of transitions. -/
theorem mark_calls_idempotent_and_tally (p : Peer) (reqs : List Bool)
    (hu : p.hasUpCallback = true) (hd : p.hasDownCallback = true) :
    (∀ r, r = p.Online → applyMark p r = (p, [])) ∧
    (∀ r, r ≠ p.Online →
      (applyMark p r).1 = { p with Online := r } ∧
      (applyMark p r).2
        = [if r then Event.upCall p.UUID else Event.downCall p.UUID]) ∧
    (runMarks p reqs).2 = expectedMarkEvents p.UUID p.Online reqs ∧
    (runMarks p reqs).2.length = countTransitions p.Online reqs := by
  refine ⟨fun r h => applyMark_noop p r h,
          fun r h => ⟨?_, applyMark_events p r hu hd h⟩,
          runMarks_eventList p reqs hu hd, ?_⟩
  · have hro : r = !p.Online := by
      cases r <;> cases hpo : p.Online <;> simp_all
    subst hro
    cases hpo : p.Online <;>
      simp [applyMark, Peer.markOnline, Peer.markOffline, hpo]
  · induction reqs generalizing p with
    | nil => rfl
    | cons r rs ih =>
      have hu1 : (applyMark p r).1.hasUpCallback = true := by
        rw [applyMark_hasUp]; exact hu
      have hd1 : (applyMark p r).1.hasDownCallback = true := by
        rw [applyMark_hasDown]; exact hd
      have hrest := ih (applyMark p r).1 hu1 hd1
      rw [applyMark_online] at hrest
      simp [runMarks, countTransitions, applyMark_len p r hu hd, hrest]

theorem mark_calls_idempotent_and_tally_witness :
    (runMarks (inboundPeerEx "p" GoMap.nilMap) [true, false, false, true]).2
      = expectedMarkEvents "p" true [true, false, false, true] ∧
    (runMarks (inboundPeerEx "p" GoMap.nilMap) [true, false, false, true]).2.length
      = countTransitions (inboundPeerEx "p" GoMap.nilMap).Online
          [true, false, false, true] := by
  constructor
  · exact (mark_calls_idempotent_and_tally (inboundPeerEx "p" GoMap.nilMap)
      [true, false, false, true] rfl rfl).2.2.1
  · exact (mark_calls_idempotent_and_tally (inboundPeerEx "p" GoMap.nilMap)
      [true, false, false, true] rfl rfl).2.2.2

/-- Claim C5.  An inbound poll with an empty identity yields the
bad-request outcome and changes neither the registry nor anything else;
an inbound poll with an unseen identity registers exactly one new inbound
peer — online, with an empty delivery queue and `LastConsumed` set to the
current instant — fires the up callback exactly once for it, and returns
the peer-created outcome regardless of how the queue wait would have
resolved (no wait happens). -/
theorem handleGET_registers_unseen (m : Manager) (uuid clientIP : String)
    (now : Nat) (wait : WaitOutcome) (hcb : m.hasUpCallback = true) :
    (Manager.handleGET m "" clientIP now wait = (GetOutcome.badRequest, m, [])) ∧
    (uuid ≠ "" → aget m.peers uuid = none →
      Manager.handleGET m uuid clientIP now wait =
        (GetOutcome.created,
         { m with peers := aset m.peers uuid (freshInboundPeer m uuid now) },
         [Event.upCall uuid]) ∧
      (freshInboundPeer m uuid now).IsServer = false ∧
      (freshInboundPeer m uuid now).Online = true ∧
      (freshInboundPeer m uuid now).ChBuf = [] ∧
      (freshInboundPeer m uuid now).LastConsumed = now) := by
  constructor
  · simp [Manager.handleGET]
  · intro hne hnone
    refine ⟨?_, rfl, rfl, rfl, rfl⟩
    simp [Manager.handleGET, hne, hnone, hcb]

theorem handleGET_registers_unseen_witness :
    Manager.handleGET (managerEx []) "alice" "10.0.0.7" 42 WaitOutcome.cancelled =
      (GetOutcome.created,
       { managerEx [] with
           peers := aset [] "alice" (freshInboundPeer (managerEx []) "alice" 42) },
       [Event.upCall "alice"]) := by
  exact ((handleGET_registers_unseen (managerEx []) "alice" "10.0.0.7" 42
    WaitOutcome.cancelled rfl).2 (by decide) rfl).1

theorem gcSweep_spec (expiry : Int) (hasDown : Bool) (now : Nat)
    (ps : List (String × Peer)) :
    (gcSweep expiry hasDown now ps).1
      = ps.filter (fun kp => kp.2.IsServer || !peerExpired expiry now kp.2) ∧
    (gcSweep expiry hasDown now ps).2
      = (ps.filter (fun kp => !kp.2.IsServer && peerExpired expiry now kp.2)).flatMap
          (fun kp => (if hasDown then [Event.downCall kp.2.UUID] else []) ++
                      [Event.chanClose kp.1]) := by
  induction ps with
  | nil => exact ⟨rfl, rfl⟩
  | cons kp rest ih =>
    obtain ⟨key, p⟩ := kp
    by_cases hs : p.IsServer <;> by_cases hx : peerExpired expiry now p <;>
      simp [gcSweep, hs, hx, List.filter_cons, ih.1, ih.2]

/-- Claim C6.  A garbage-collection pass removes from the registry exactly
the inbound (non-server) peers whose `LastConsumed` is older than the
expiry threshold, and for each removed peer it invokes the down callback
and closes its delivery queue, in sweep order; a server (outbound) peer is
never removed by the pass, whatever its state. -/
theorem garbage_collect_evicts_exactly_expired (m : Manager) (now : Nat)
    (hd : m.hasDownCallback = true) :
    (m.garbageCollectPeers now).1.peers
      = m.peers.filter (fun kp => kp.2.IsServer || !peerExpired m.PeerExpiry now kp.2) ∧
    (m.garbageCollectPeers now).2
      = (m.peers.filter (fun kp => !kp.2.IsServer && peerExpired m.PeerExpiry now kp.2)).flatMap
          (fun kp => [Event.downCall kp.2.UUID, Event.chanClose kp.1]) ∧
    (∀ kp ∈ m.peers, kp.2.IsServer = true →
      kp ∈ (m.garbageCollectPeers now).1.peers) := by
  have h := gcSweep_spec m.PeerExpiry m.hasDownCallback now m.peers
  rw [hd] at h
  refine ⟨?_, ?_, ?_⟩
  · simp [Manager.garbageCollectPeers, hd, h.1]
  · simp [Manager.garbageCollectPeers, hd, h.2]
  · intro kp hkp hsrv
    simp [Manager.garbageCollectPeers, hd, h.1, List.mem_filter, hkp, hsrv]

theorem garbage_collect_evicts_exactly_expired_witness :
    ((managerEx [("srv", serverPeerEx), ("old", inboundPeerEx "old" GoMap.nilMap)]).garbageCollectPeers
        1000000000000).1.peers
      = [("srv", serverPeerEx)] := by
  exact (garbage_collect_evicts_exactly_expired
    (managerEx [("srv", serverPeerEx), ("old", inboundPeerEx "old" GoMap.nilMap)])
    1000000000000 rfl).1.trans (by decide)

end GoLongpoll
